import Mathlib

/-!
Verification development for the document-intake Streamlit application
(src/streamlit_app.py).  The session data model and every handler that
mutates st.session_state are embedded as pure Lean definitions; one user
interaction (a button press / chat submission during one script run) is an
Action, and the script run itself is the render function, which also models
the API-key gate at lines 87-97 of the source.
-/

namespace Minformp

/-- Result of a successful OCR call: extracted text plus the coarse
form-type label (fields read at lines 139-141 and 170 of the source). -/
structure OcrResult where
  text : String
  form_type : String
deriving DecidableEq, Repr

/-- Result of the document analyzer (fields read at lines 195 and 203). -/
structure Analysis where
  key_values : String
  summary : String
deriving DecidableEq, Repr

/-- The durable per-document record built at lines 145-151 of the source. -/
structure ProcessedDoc where
  filename : String
  timestamp : String
  ocr_result : OcrResult
  analysis : Analysis
  id : Nat
deriving DecidableEq, Repr

/-- One chat transcript entry, a dict with role and content keys
(lines 229 and 238). -/
structure ChatTurn where
  role : String
  content : String
deriving DecidableEq, Repr

/-- The session-state entries the application ever writes:
processed_data and chat_history (initialized at lines 45-48),
current_filename (line 127) and chat_context (line 298). -/
structure SessionState where
  processed_data : List ProcessedDoc
  chat_history : List ChatTurn
  current_filename : Option String
  chat_context : Option ProcessedDoc
deriving DecidableEq, Repr

/-- Initial session state: both sequences empty, the optional entries
absent (lines 45-48 only create the two lists). -/
def initState : SessionState :=
  { processed_data := [], chat_history := [], current_filename := none,
    chat_context := none }

/-- Outcome of the remote OCR call at line 131: it raises, returns a falsy
result (line 133), or returns a usable result. -/
inductive OcrOutcome where
  | raises : OcrOutcome
  | falsy : OcrOutcome
  | ok : OcrResult → OcrOutcome
deriving DecidableEq, Repr

/-- Outcome of the analyze_document call at line 139: it raises or
returns an analysis value. -/
inductive AnalyzeOutcome where
  | raises : AnalyzeOutcome
  | ok : Analysis → AnalyzeOutcome
deriving DecidableEq, Repr

/-- Outcome of the chat_with_data call at line 234. -/
inductive ChatOutcome where
  | raises : ChatOutcome
  | ok : String → ChatOutcome
deriving DecidableEq, Repr

/-- The record literal of lines 145-151. -/
def mkDoc (fn ts : String) (r : OcrResult) (a : Analysis) (n : Nat) :
    ProcessedDoc :=
  { filename := fn, timestamp := ts, ocr_result := r, analysis := a, id := n }

/-- The Process Document button handler, lines 123-160.  Inside the try
block, current_filename is set first (line 127); then the OCR call runs.
If it raises, the except clause reports the error and nothing else happens;
if its result is falsy, an error is shown and st.stop is invoked; either way
no document is appended.  On a usable OCR result the analyzer runs (a raise
there is caught by the same except clause, again appending nothing), and on
success the record of lines 145-151 is appended, with id computed as
len(processed_data) + 1 before the append (line 150). -/
def processAction (s : SessionState) (fn ts : String)
    (ocr : OcrOutcome) (an : AnalyzeOutcome) : SessionState :=
  let s1 := { s with current_filename := some fn }
  match ocr with
  | .raises => s1
  | .falsy => s1
  | .ok r =>
      match an with
      | .raises => s1
      | .ok a =>
          { s1 with processed_data :=
              s1.processed_data ++ [mkDoc fn ts r a (s1.processed_data.length + 1)] }

/-- A user turn as appended at line 229. -/
def userTurn (c : String) : ChatTurn := { role := "user", content := c }

/-- An assistant turn as appended at line 238. -/
def assistantTurn (c : String) : ChatTurn :=
  { role := "assistant", content := c }

/-- The chat input handler, lines 227-240.  The chat widget only renders
when processed_data is nonempty (line 213).  The user turn is appended
first (line 229); then chat_with_data is called, and only on success is an
assistant turn appended (line 238) - the except clause (line 239) reports
the error without touching the transcript. -/
def chatAction (s : SessionState) (q : String) (outcome : ChatOutcome) :
    SessionState :=
  if s.processed_data = [] then s
  else
    let s1 := { s with chat_history := s.chat_history ++ [userTurn q] }
    match outcome with
    | .raises => s1
    | .ok resp =>
        { s1 with chat_history := s1.chat_history ++ [assistantTurn resp] }

/-- The Clear All Data button handler, lines 77-83.  The button only
renders when processed_data is nonempty (line 77); clicking it empties both
sequences (lines 80-81). -/
def clearAllAction (s : SessionState) : SessionState :=
  if s.processed_data = [] then s
  else { s with processed_data := [], chat_history := [] }

/-- The Clear Chat History button handler, lines 252-255.  It sits in the
chat tab, which requires processed_data nonempty (line 213), and the button
itself only renders when chat_history is nonempty (line 252). -/
def clearChatAction (s : SessionState) : SessionState :=
  if s.processed_data = [] then s
  else if s.chat_history = [] then s
  else { s with chat_history := [] }

/-- The per-document chat button in the analytics tab, lines 297-298: it
stores the chosen document in chat_context and touches nothing else.  The
tab requires processed_data nonempty (line 260). -/
def chatAboutAction (s : SessionState) (d : ProcessedDoc) : SessionState :=
  if s.processed_data = [] then s
  else { s with chat_context := some d }

/-- One user interaction: which widget fired during this script run,
together with the outcomes of any remote calls it made.  exportAll is the
JSON export button (lines 303-319), which only reads session state. -/
inductive Action where
  | process : String → String → OcrOutcome → AnalyzeOutcome → Action
  | chat : String → ChatOutcome → Action
  | clearAll : Action
  | clearChat : Action
  | chatAbout : ProcessedDoc → Action
  | exportAll : Action
deriving DecidableEq, Repr

/-- Dispatch of one interaction to its handler, keys assumed present. -/
def stepA (s : SessionState) : Action → SessionState
  | .process fn ts ocr an => processAction s fn ts ocr an
  | .chat q outcome => chatAction s q outcome
  | .clearAll => clearAllAction s
  | .clearChat => clearChatAction s
  | .chatAbout d => chatAboutAction s d
  | .exportAll => s

/-- One full script run, including the API-key gate.  The sidebar (with the
Clear All Data button, lines 77-83) renders before the key check at lines
88-91; when either key is the empty string (falsy in Python), st.stop at
line 91 prevents every later widget - processing, chat, clear-chat,
analytics, export - from rendering, so only the clearAll interaction can
still take effect in that run. -/
def render (mistral_key groq_key : String) (s : SessionState) (a : Action) :
    SessionState :=
  if mistral_key = "" ∨ groq_key = "" then
    match a with
    | .clearAll => clearAllAction s
    | _ => s
  else stepA s a

/-- Session states reachable from the fresh session by any sequence of
script runs, with arbitrary key strings entered in each run. -/
inductive Reachable : SessionState → Prop where
  | init : Reachable initState
  | step (mkey gkey : String) (s : SessionState) (a : Action) :
      Reachable s → Reachable (render mkey gkey s a)

/-- The Latest Results panel reads processed_data[-1] (line 166). -/
def latestDoc (s : SessionState) : Option ProcessedDoc :=
  s.processed_data.getLast?

/-- Analytics: Total Documents metric, line 267. -/
def totalDocuments (docs : List ProcessedDoc) : Nat := docs.length

/-- Analytics: Total Characters metric, line 275. -/
def totalChars (docs : List ProcessedDoc) : Nat :=
  (docs.map (fun d => d.ocr_result.text.length)).sum

/-- One pass of the dict update at line 283:
counts[t] = counts.get(t, 0) + 1, on an insertion-ordered association
list - the first entry with the key is bumped in place, a missing key is
appended at the end. -/
def bumpCount : List (String × Nat) → String → List (String × Nat)
  | [], k => [(k, 1)]
  | p :: rest, k =>
      if p.1 = k then (p.1, p.2 + 1) :: rest else p :: bumpCount rest k

/-- The document-type distribution loop of lines 280-283. -/
def formTypeCounts (docs : List ProcessedDoc) : List (String × Nat) :=
  docs.foldl (fun m d => bumpCount m d.ocr_result.form_type) []

/-- Reading the distribution dict: value of the first entry with the given
key, 0 when absent (the get default at line 283). -/
def lookupCount : List (String × Nat) → String → Nat
  | [], _ => 0
  | p :: rest, k => if p.1 = k then p.2 else lookupCount rest k

/-- C1: For every processing action in which the OCR call fails - whether
process_image raises or returns a falsy result - the processed-document
sequence is left exactly as it was: no record, partial or otherwise, is
appended to processed_data. -/
theorem C1_ocr_failure_no_append (s : SessionState) (fn ts : String)
    (an : AnalyzeOutcome) :
    (processAction s fn ts OcrOutcome.raises an).processed_data
        = s.processed_data ∧
    (processAction s fn ts OcrOutcome.falsy an).processed_data
        = s.processed_data := by
  exact ⟨rfl, rfl⟩

/-- C2: When chat_with_data raises, the chat handler leaves the transcript
equal to the old transcript plus exactly the user turn it appended before
the call: its length grows only by that user turn, no assistant turn is
appended, and the user turn is the last element. -/
theorem C2_chat_failure_no_assistant (s : SessionState) (q : String)
    (h : s.processed_data ≠ []) :
    (chatAction s q ChatOutcome.raises).chat_history
        = s.chat_history ++ [userTurn q] ∧
    (chatAction s q ChatOutcome.raises).chat_history.length
        = s.chat_history.length + 1 ∧
    (chatAction s q ChatOutcome.raises).chat_history.getLast?
        = some (userTurn q) := by
  simp [chatAction, h]

theorem clearAllAction_processed_nil (s : SessionState) :
    (clearAllAction s).processed_data = [] := by
  unfold clearAllAction
  split
  · assumption
  · rfl

theorem clearAllAction_chat (s : SessionState) :
    (clearAllAction s).chat_history = []
      ∨ (clearAllAction s).chat_history = s.chat_history := by
  unfold clearAllAction
  split
  · exact Or.inr rfl
  · exact Or.inl rfl

/-- Across any single interaction, the document sequence is either left
unchanged, emptied (Clear All Data), or extended by exactly one record
whose id is the old length plus one. -/
theorem stepA_processed_shape (s : SessionState) (a : Action) :
    (stepA s a).processed_data = s.processed_data ∨
    (stepA s a).processed_data = [] ∨
    ∃ d : ProcessedDoc, d.id = s.processed_data.length + 1 ∧
      (stepA s a).processed_data = s.processed_data ++ [d] := by
  cases a with
  | process fn ts ocr an =>
      cases ocr with
      | raises => exact Or.inl rfl
      | falsy => exact Or.inl rfl
      | ok r =>
          cases an with
          | raises => exact Or.inl rfl
          | ok x =>
              refine Or.inr (Or.inr ⟨mkDoc fn ts r x (s.processed_data.length + 1), rfl, ?_⟩)
              rfl
  | chat q outcome =>
      simp only [stepA, chatAction]
      by_cases hp : s.processed_data = []
      · rw [if_pos hp]; exact Or.inl rfl
      · rw [if_neg hp]
        cases outcome with
        | raises => exact Or.inl rfl
        | ok resp => exact Or.inl rfl
  | clearAll => exact Or.inr (Or.inl (clearAllAction_processed_nil s))
  | clearChat =>
      simp only [stepA, clearChatAction]
      by_cases hp : s.processed_data = []
      · rw [if_pos hp]; exact Or.inl rfl
      · rw [if_neg hp]
        by_cases hc : s.chat_history = []
        · rw [if_pos hc]; exact Or.inl rfl
        · rw [if_neg hc]; exact Or.inl rfl
  | chatAbout d =>
      simp only [stepA, chatAboutAction]
      by_cases hp : s.processed_data = []
      · rw [if_pos hp]; exact Or.inl rfl
      · rw [if_neg hp]; exact Or.inl rfl
  | exportAll => exact Or.inl rfl

theorem render_processed_shape (mkey gkey : String) (s : SessionState)
    (a : Action) :
    (render mkey gkey s a).processed_data = s.processed_data ∨
    (render mkey gkey s a).processed_data = [] ∨
    ∃ d : ProcessedDoc, d.id = s.processed_data.length + 1 ∧
      (render mkey gkey s a).processed_data = s.processed_data ++ [d] := by
  unfold render
  by_cases hk : mkey = "" ∨ gkey = ""
  · rw [if_pos hk]
    cases a with
    | clearAll => exact Or.inr (Or.inl (clearAllAction_processed_nil s))
    | process fn ts ocr an => exact Or.inl rfl
    | chat q outcome => exact Or.inl rfl
    | clearChat => exact Or.inl rfl
    | chatAbout d => exact Or.inl rfl
    | exportAll => exact Or.inl rfl
  · rw [if_neg hk]
    exact stepA_processed_shape s a

/-- Ids in a document list are exactly position plus one. -/
def idsConsecutive (docs : List ProcessedDoc) : Prop :=
  ∀ (i : Nat) (hi : i < docs.length), (docs.get ⟨i, hi⟩).id = i + 1

theorem idsConsecutive_nil : idsConsecutive [] := by
  intro i hi
  simp at hi

theorem idsConsecutive_append (l : List ProcessedDoc) (d : ProcessedDoc)
    (hl : idsConsecutive l) (hd : d.id = l.length + 1) :
    idsConsecutive (l ++ [d]) := by
  intro i hi
  have hi' : i < l.length + 1 := by simpa using hi
  rcases Nat.lt_or_ge i l.length with h | h
  · have hg : (l ++ [d]).get ⟨i, hi⟩ = l.get ⟨i, h⟩ := by
      simp [List.get_eq_getElem, List.getElem_append_left h]
    rw [hg]
    exact hl i h
  · have hil : i = l.length := by omega
    subst hil
    have hg : (l ++ [d]).get ⟨l.length, hi⟩ = d := by
      simp [List.get_eq_getElem]
    rw [hg, hd]

theorem reachable_idsConsecutive (s : SessionState) (h : Reachable s) :
    idsConsecutive s.processed_data := by
  induction h with
  | init => exact idsConsecutive_nil
  | step mkey gkey s' a hr ih =>
      rcases render_processed_shape mkey gkey s' a with h1 | h1 | ⟨d, hd, h1⟩
      · rw [h1]; exact ih
      · rw [h1]; exact idsConsecutive_nil
      · rw [h1]; exact idsConsecutive_append _ _ ih hd

/-- C3: In every reachable session state the stored document ids are
exactly 1, 2, ..., n in order: they are assigned as length-plus-one at
commit time, hence strictly increasing within the store, and after Clear
All Data the numbering restarts at 1 (the reset-after-clear policy of the
claim). -/
theorem C3_ids_sequential (s : SessionState) (h : Reachable s)
    (i : Nat) (hi : i < s.processed_data.length) :
    (s.processed_data.get ⟨i, hi⟩).id = i + 1 :=
  reachable_idsConsecutive s h i hi

/-- Sample OCR result for concrete executions. -/
def sampleOcr : OcrResult := { text := "Name: Jane", form_type := "invoice" }

/-- Sample analysis for concrete executions. -/
def sampleAnalysis : Analysis :=
  { key_values := "Name: Jane", summary := "short summary" }

/-- State after one successful processing action in a fresh session. -/
def exampleState1 : SessionState :=
  render "mkey" "gkey" initState
    (Action.process "a.png" "t0" (OcrOutcome.ok sampleOcr)
      (AnalyzeOutcome.ok sampleAnalysis))

/-- State after a further successful chat action. -/
def exampleState2 : SessionState :=
  render "mkey" "gkey" exampleState1 (Action.chat "q" (ChatOutcome.ok "ans"))

theorem C3_ids_sequential_witness :
    (exampleState1.processed_data.get ⟨0, by decide⟩).id = 1 :=
  C3_ids_sequential exampleState1
    (Reachable.step "mkey" "gkey" initState
      (Action.process "a.png" "t0" (OcrOutcome.ok sampleOcr)
        (AnalyzeOutcome.ok sampleAnalysis)) Reachable.init)
    0 (by decide)

/-- C6: No interaction updates, replaces, or removes an individual record
already in the document sequence: every script run either leaves the
sequence unchanged, appends exactly one new record at its end (a successful
processing action), or empties the whole sequence (Clear All Data). -/
theorem C6_records_immutable (mkey gkey : String) (s : SessionState)
    (a : Action) :
    (render mkey gkey s a).processed_data = s.processed_data ∨
    (∃ d : ProcessedDoc,
      (render mkey gkey s a).processed_data = s.processed_data ++ [d]) ∨
    (render mkey gkey s a).processed_data = [] := by
  rcases render_processed_shape mkey gkey s a with h | h | ⟨d, _, h⟩
  · exact Or.inl h
  · exact Or.inr (Or.inr h)
  · exact Or.inr (Or.inl ⟨d, h⟩)

/-- C7: A successful processing action appends the new record at the end of
the document sequence (insertion order is processing order), and the Latest
Results panel, which reads the last element, then presents exactly the
record just committed. -/
theorem C7_latest_is_last (s : SessionState) (fn ts : String)
    (r : OcrResult) (a : Analysis) :
    (processAction s fn ts (OcrOutcome.ok r) (AnalyzeOutcome.ok a)).processed_data
        = s.processed_data ++ [mkDoc fn ts r a (s.processed_data.length + 1)] ∧
    latestDoc (processAction s fn ts (OcrOutcome.ok r) (AnalyzeOutcome.ok a))
        = some (mkDoc fn ts r a (s.processed_data.length + 1)) := by
  constructor
  · rfl
  · simp [latestDoc, processAction]

/-- C5 as stated is false: the handler assigns
st.session_state.current_filename = uploaded_file.name (line 127) before
the OCR call, so a processing action whose OCR call raises still changes
session state.  Concretely, from the fresh session a failed processing of
a.png leaves current_filename set, where it was previously absent. -/
theorem C5_counterexample :
    (processAction initState "a.png" "t0" OcrOutcome.raises
        AnalyzeOutcome.raises).current_filename = some "a.png" ∧
    initState.current_filename = none := by
  exact ⟨rfl, rfl⟩

/-- C5 amended: when the OCR call fails (raises or returns a falsy result),
the processing action leaves processed_data, chat_history and chat_context
exactly as they were, but current_filename has already been set to the
uploaded file's name. -/
theorem C5_frame_amended (s : SessionState) (fn ts : String)
    (an : AnalyzeOutcome) (ocr : OcrOutcome)
    (h : ocr = OcrOutcome.raises ∨ ocr = OcrOutcome.falsy) :
    (processAction s fn ts ocr an).processed_data = s.processed_data ∧
    (processAction s fn ts ocr an).chat_history = s.chat_history ∧
    (processAction s fn ts ocr an).chat_context = s.chat_context ∧
    (processAction s fn ts ocr an).current_filename = some fn := by
  rcases h with h | h <;> subst h <;> exact ⟨rfl, rfl, rfl, rfl⟩

theorem C5_frame_amended_witness :
    (processAction initState "a.png" "t0" OcrOutcome.raises
        AnalyzeOutcome.raises).processed_data = initState.processed_data ∧
    (processAction initState "a.png" "t0" OcrOutcome.raises
        AnalyzeOutcome.raises).chat_history = initState.chat_history ∧
    (processAction initState "a.png" "t0" OcrOutcome.raises
        AnalyzeOutcome.raises).chat_context = initState.chat_context ∧
    (processAction initState "a.png" "t0" OcrOutcome.raises
        AnalyzeOutcome.raises).current_filename = some "a.png" :=
  C5_frame_amended initState "a.png" "t0" AnalyzeOutcome.raises
    OcrOutcome.raises (Or.inl rfl)

/-- C10 as stated is false: the sidebar, including the Clear All Data
button, renders before the API-key check at lines 88-91, so a script run
with an empty Mistral key in which that button is clicked still empties
both sequences.  Concretely, from a session holding one processed document,
such a run leaves the document sequence empty. -/
theorem C10_counterexample :
    exampleState1.processed_data.length = 1 ∧
    (render "" "gkey" exampleState1 Action.clearAll).processed_data.length
        = 0 := by
  constructor
  · rfl
  · rfl

/-- C10 amended: when either credential string is empty, the script run
halts at the key check before constructing any processor, so no processing,
chat, clear-chat, chat-context or export interaction has any effect - the
state is returned unchanged for every such interaction; the one exception
is the sidebar Clear All Data button, which renders before the check and
still behaves as the clear operation. -/
theorem C10_halt_amended (mkey gkey : String) (s : SessionState)
    (a : Action) (hkey : mkey = "" ∨ gkey = "") :
    (a ≠ Action.clearAll → render mkey gkey s a = s) ∧
    render mkey gkey s Action.clearAll = clearAllAction s := by
  constructor
  · intro hne
    unfold render
    rw [if_pos hkey]
    cases a with
    | clearAll => exact absurd rfl hne
    | process fn ts ocr an => rfl
    | chat q outcome => rfl
    | clearChat => rfl
    | chatAbout d => rfl
    | exportAll => rfl
  · unfold render
    rw [if_pos hkey]

theorem C10_halt_amended_witness :
    ((Action.exportAll ≠ Action.clearAll →
        render "" "gkey" exampleState1 Action.exportAll = exampleState1) ∧
      render "" "gkey" exampleState1 Action.clearAll
          = clearAllAction exampleState1) :=
  C10_halt_amended "" "gkey" exampleState1 Action.exportAll (Or.inl rfl)

theorem render_processed_no_clear (mkey gkey : String) (s : SessionState)
    (a : Action) (hne : a ≠ Action.clearAll) :
    (render mkey gkey s a).processed_data = s.processed_data ∨
    ∃ d : ProcessedDoc,
      (render mkey gkey s a).processed_data = s.processed_data ++ [d] := by
  unfold render
  by_cases hk : mkey = "" ∨ gkey = ""
  · rw [if_pos hk]
    cases a with
    | clearAll => exact absurd rfl hne
    | process fn ts ocr an => exact Or.inl rfl
    | chat q outcome => exact Or.inl rfl
    | clearChat => exact Or.inl rfl
    | chatAbout d => exact Or.inl rfl
    | exportAll => exact Or.inl rfl
  · rw [if_neg hk]
    cases a with
    | clearAll => exact absurd rfl hne
    | process fn ts ocr an =>
        cases ocr with
        | raises => exact Or.inl rfl
        | falsy => exact Or.inl rfl
        | ok r =>
            cases an with
            | raises => exact Or.inl rfl
            | ok x => exact Or.inr ⟨_, rfl⟩
    | chat q outcome =>
        simp only [stepA, chatAction]
        by_cases hp : s.processed_data = []
        · rw [if_pos hp]; exact Or.inl rfl
        · rw [if_neg hp]
          cases outcome with
          | raises => exact Or.inl rfl
          | ok resp => exact Or.inl rfl
    | clearChat =>
        simp only [stepA, clearChatAction]
        by_cases hp : s.processed_data = []
        · rw [if_pos hp]; exact Or.inl rfl
        · rw [if_neg hp]
          by_cases hc : s.chat_history = []
          · rw [if_pos hc]; exact Or.inl rfl
          · rw [if_neg hc]; exact Or.inl rfl
    | chatAbout d =>
        simp only [stepA, chatAboutAction]
        by_cases hp : s.processed_data = []
        · rw [if_pos hp]; exact Or.inl rfl
        · rw [if_neg hp]; exact Or.inl rfl
    | exportAll => exact Or.inl rfl

theorem render_chat_no_clear (mkey gkey : String) (s : SessionState)
    (a : Action) (h1 : a ≠ Action.clearAll) (h2 : a ≠ Action.clearChat) :
    (render mkey gkey s a).chat_history = s.chat_history ∨
    (∃ q : String,
      (render mkey gkey s a).chat_history
        = s.chat_history ++ [userTurn q]) ∨
    (∃ q resp : String,
      (render mkey gkey s a).chat_history
        = s.chat_history ++ [userTurn q, assistantTurn resp]) := by
  unfold render
  by_cases hk : mkey = "" ∨ gkey = ""
  · rw [if_pos hk]
    cases a with
    | clearAll => exact absurd rfl h1
    | process fn ts ocr an => exact Or.inl rfl
    | chat q outcome => exact Or.inl rfl
    | clearChat => exact Or.inl rfl
    | chatAbout d => exact Or.inl rfl
    | exportAll => exact Or.inl rfl
  · rw [if_neg hk]
    cases a with
    | clearAll => exact absurd rfl h1
    | clearChat => exact absurd rfl h2
    | process fn ts ocr an =>
        cases ocr with
        | raises => exact Or.inl rfl
        | falsy => exact Or.inl rfl
        | ok r =>
            cases an with
            | raises => exact Or.inl rfl
            | ok x => exact Or.inl rfl
    | chat q outcome =>
        simp only [stepA, chatAction]
        by_cases hp : s.processed_data = []
        · rw [if_pos hp]; exact Or.inl rfl
        · rw [if_neg hp]
          cases outcome with
          | raises => exact Or.inr (Or.inl ⟨q, rfl⟩)
          | ok resp =>
              refine Or.inr (Or.inr ⟨q, resp, ?_⟩)
              simp [List.append_assoc]
    | chatAbout d =>
        simp only [stepA, chatAboutAction]
        by_cases hp : s.processed_data = []
        · rw [if_pos hp]; exact Or.inl rfl
        · rw [if_neg hp]; exact Or.inl rfl
    | exportAll => exact Or.inl rfl

/-- In every reachable state a nonempty chat transcript implies a nonempty
document sequence: chatting needs a processed document, and the only way
to empty the document sequence (Clear All Data) empties the transcript
with it. -/
theorem reachable_chat_imp_processed (s : SessionState) (h : Reachable s) :
    s.chat_history ≠ [] → s.processed_data ≠ [] := by
  induction h with
  | init => intro hc; exact absurd rfl hc
  | step mkey gkey s' a hr ih =>
      unfold render
      by_cases hk : mkey = "" ∨ gkey = ""
      · rw [if_pos hk]
        cases a with
        | clearAll =>
            show (clearAllAction s').chat_history ≠ [] →
              (clearAllAction s').processed_data ≠ []
            unfold clearAllAction
            by_cases hp : s'.processed_data = []
            · rw [if_pos hp]
              intro hc
              exact absurd hp (ih hc)
            · rw [if_neg hp]
              intro hc
              exact absurd rfl hc
        | process fn ts ocr an => exact ih
        | chat q outcome => exact ih
        | clearChat => exact ih
        | chatAbout d => exact ih
        | exportAll => exact ih
      · rw [if_neg hk]
        cases a with
        | process fn ts ocr an =>
            cases ocr with
            | raises => exact ih
            | falsy => exact ih
            | ok r =>
                cases an with
                | raises => exact ih
                | ok x =>
                    intro _
                    simp [stepA, processAction]
        | chat q outcome =>
            simp only [stepA, chatAction]
            by_cases hp : s'.processed_data = []
            · rw [if_pos hp]; exact ih
            · rw [if_neg hp]
              cases outcome with
              | raises => intro _; exact hp
              | ok resp => intro _; exact hp
        | clearAll =>
            show (clearAllAction s').chat_history ≠ [] →
              (clearAllAction s').processed_data ≠ []
            unfold clearAllAction
            by_cases hp : s'.processed_data = []
            · rw [if_pos hp]
              intro hc
              exact absurd hp (ih hc)
            · rw [if_neg hp]
              intro hc
              exact absurd rfl hc
        | clearChat =>
            simp only [stepA, clearChatAction]
            by_cases hp : s'.processed_data = []
            · rw [if_pos hp]; exact ih
            · rw [if_neg hp]
              by_cases hc : s'.chat_history = []
              · rw [if_pos hc]; exact ih
              · rw [if_neg hc]
                intro _
                exact hp
        | chatAbout d =>
            simp only [stepA, chatAboutAction]
            by_cases hp : s'.processed_data = []
            · rw [if_pos hp]; exact ih
            · rw [if_neg hp]
              intro _
              exact hp
        | exportAll => exact ih

/-- C4 as stated is false: Clear All Data is not the only operation that
can shorten a sequence - the Clear Chat History button (lines 252-255)
also empties the chat sequence.  Concretely, from a reachable state with
one document and a two-turn transcript, the clear-chat interaction drops
the transcript from length 2 to length 0. -/
theorem C4_counterexample :
    Action.clearChat ≠ Action.clearAll ∧
    exampleState2.chat_history.length = 2 ∧
    (stepA exampleState2 Action.clearChat).chat_history.length = 0 := by
  refine ⟨by decide, rfl, rfl⟩

/-- C4 amended: Clear All Data leaves both sequences at length 0 from any
reachable state; it is the only interaction that can shorten the document
sequence (Clear Chat History keeps the document sequence intact), while
the chat sequence can be shortened by Clear All Data or Clear Chat History
but by no other interaction. -/
theorem C4_clear_amended (s : SessionState) (h : Reachable s)
    (mkey gkey : String) (a : Action)
    (h1 : a ≠ Action.clearAll) (h2 : a ≠ Action.clearChat) :
    (stepA s Action.clearAll).processed_data.length = 0 ∧
    (stepA s Action.clearAll).chat_history.length = 0 ∧
    (stepA s Action.clearChat).processed_data = s.processed_data ∧
    s.processed_data.length ≤ (render mkey gkey s a).processed_data.length ∧
    s.chat_history.length ≤ (render mkey gkey s a).chat_history.length := by
  refine ⟨?_, ?_, ?_, ?_, ?_⟩
  · show (clearAllAction s).processed_data.length = 0
    rw [clearAllAction_processed_nil]
    rfl
  · show (clearAllAction s).chat_history.length = 0
    unfold clearAllAction
    by_cases hp : s.processed_data = []
    · rw [if_pos hp]
      by_cases hc : s.chat_history = []
      · rw [hc]; rfl
      · exact absurd hp (reachable_chat_imp_processed s h hc)
    · rw [if_neg hp]
      rfl
  · show (clearChatAction s).processed_data = s.processed_data
    unfold clearChatAction
    by_cases hp : s.processed_data = []
    · rw [if_pos hp]
    · rw [if_neg hp]
      by_cases hc : s.chat_history = []
      · rw [if_pos hc]
      · rw [if_neg hc]
  · rcases render_processed_no_clear mkey gkey s a h1 with he | ⟨d, he⟩
    · rw [he]
    · rw [he]; simp
  · rcases render_chat_no_clear mkey gkey s a h1 h2 with
      he | ⟨q, he⟩ | ⟨q, resp, he⟩
    · rw [he]
    · rw [he]; simp
    · rw [he]; simp

theorem C4_clear_amended_witness :
    (stepA exampleState2 Action.clearAll).processed_data.length = 0 ∧
    (stepA exampleState2 Action.clearAll).chat_history.length = 0 ∧
    (stepA exampleState2 Action.clearChat).processed_data
        = exampleState2.processed_data ∧
    exampleState2.processed_data.length
        ≤ (render "mkey" "gkey" exampleState2
            Action.exportAll).processed_data.length ∧
    exampleState2.chat_history.length
        ≤ (render "mkey" "gkey" exampleState2
            Action.exportAll).chat_history.length :=
  C4_clear_amended exampleState2
    (Reachable.step "mkey" "gkey" exampleState1
      (Action.chat "q" (ChatOutcome.ok "ans"))
      (Reachable.step "mkey" "gkey" initState
        (Action.process "a.png" "t0" (OcrOutcome.ok sampleOcr)
          (AnalyzeOutcome.ok sampleAnalysis)) Reachable.init))
    "mkey" "gkey" Action.exportAll (by decide) (by decide)

theorem C2_chat_failure_no_assistant_witness :
    (chatAction exampleState1 "hello" ChatOutcome.raises).chat_history
        = exampleState1.chat_history ++ [userTurn "hello"] ∧
    (chatAction exampleState1 "hello" ChatOutcome.raises).chat_history.length
        = exampleState1.chat_history.length + 1 ∧
    (chatAction exampleState1 "hello" ChatOutcome.raises).chat_history.getLast?
        = some (userTurn "hello") :=
  C2_chat_failure_no_assistant exampleState1 "hello" (by decide)

/-- Well-formed transcript: every assistant turn is immediately preceded
by a user turn, and the first turn of a nonempty transcript is a user
turn. -/
def chatShapeOK (l : List ChatTurn) : Prop :=
  (∀ (i : Nat) (hi : i < l.length), (l.get ⟨i, hi⟩).role = "assistant" →
      ∃ (j : Nat) (hj : j < l.length),
        i = j + 1 ∧ (l.get ⟨j, hj⟩).role = "user") ∧
  (∀ h0 : 0 < l.length, (l.get ⟨0, h0⟩).role = "user")

theorem chatShapeOK_nil : chatShapeOK [] := by
  constructor
  · intro i hi
    simp at hi
  · intro h0
    simp at h0

theorem chatShapeOK_append_user (l : List ChatTurn) (c : String)
    (h : chatShapeOK l) : chatShapeOK (l ++ [userTurn c]) := by
  obtain ⟨h1, h2⟩ := h
  constructor
  · intro i hi hrole
    rcases Nat.lt_or_ge i l.length with hlt | hge
    · have hg : (l ++ [userTurn c]).get ⟨i, hi⟩ = l.get ⟨i, hlt⟩ := by
        simp [List.get_eq_getElem, List.getElem_append_left hlt]
      rw [hg] at hrole
      obtain ⟨j, hj, hij, hju⟩ := h1 i hlt hrole
      have hj' : j < (l ++ [userTurn c]).length := by
        simp only [List.length_append, List.length_cons, List.length_nil]
        omega
      refine ⟨j, hj', hij, ?_⟩
      have hg2 : (l ++ [userTurn c]).get ⟨j, hj'⟩ = l.get ⟨j, hj⟩ := by
        simp [List.get_eq_getElem, List.getElem_append_left hj]
      rw [hg2]
      exact hju
    · have hi' : i < l.length + 1 := by simpa using hi
      have hieq : i = l.length := by omega
      subst hieq
      have hg : (l ++ [userTurn c]).get ⟨l.length, hi⟩ = userTurn c := by
        simp [List.get_eq_getElem]
      rw [hg] at hrole
      simp [userTurn] at hrole
  · intro h0
    by_cases hl : l = []
    · subst hl
      simp [List.get_eq_getElem, userTurn]
    · have hlen : 0 < l.length := List.length_pos.mpr hl
      have hg : (l ++ [userTurn c]).get ⟨0, h0⟩ = l.get ⟨0, hlen⟩ := by
        simp [List.get_eq_getElem, List.getElem_append_left hlen]
      rw [hg]
      exact h2 hlen

theorem chatShapeOK_append_answered (l : List ChatTurn) (c resp : String)
    (h : chatShapeOK l) :
    chatShapeOK (l ++ [userTurn c, assistantTurn resp]) := by
  have hu := chatShapeOK_append_user l c h
  obtain ⟨h1, h2⟩ := hu
  have hassoc : l ++ [userTurn c, assistantTurn resp]
      = (l ++ [userTurn c]) ++ [assistantTurn resp] := by
    simp
  rw [hassoc]
  set m := l ++ [userTurn c] with hm
  have hmlen : m.length = l.length + 1 := by
    simp [hm]
  have hmlast : ∀ hh : l.length < m.length,
      (m.get ⟨l.length, hh⟩).role = "user" := by
    intro hh
    have hg : m.get ⟨l.length, hh⟩ = userTurn c := by
      simp [hm, List.get_eq_getElem]
    rw [hg]
    rfl
  constructor
  · intro i hi hrole
    rcases Nat.lt_or_ge i m.length with hlt | hge
    · have hg : (m ++ [assistantTurn resp]).get ⟨i, hi⟩ = m.get ⟨i, hlt⟩ := by
        simp [List.get_eq_getElem, List.getElem_append_left hlt]
      rw [hg] at hrole
      obtain ⟨j, hj, hij, hju⟩ := h1 i hlt hrole
      have hj' : j < (m ++ [assistantTurn resp]).length := by
        simp only [List.length_append, List.length_cons, List.length_nil]
        omega
      refine ⟨j, hj', hij, ?_⟩
      have hg2 : (m ++ [assistantTurn resp]).get ⟨j, hj'⟩ = m.get ⟨j, hj⟩ := by
        simp [List.get_eq_getElem, List.getElem_append_left hj]
      rw [hg2]
      exact hju
    · have hi' : i < m.length + 1 := by simpa using hi
      have hieq : i = m.length := by omega
      subst hieq
      have hjlt : l.length < m.length := by omega
      have hj' : l.length < (m ++ [assistantTurn resp]).length := by
        simp only [List.length_append, List.length_cons, List.length_nil]
        omega
      refine ⟨l.length, hj', by omega, ?_⟩
      have hg2 : (m ++ [assistantTurn resp]).get ⟨l.length, hj'⟩
          = m.get ⟨l.length, hjlt⟩ := by
        simp [List.get_eq_getElem, List.getElem_append_left hjlt]
      rw [hg2]
      exact hmlast hjlt
  · intro h0
    have hmpos : 0 < m.length := by omega
    have hg : (m ++ [assistantTurn resp]).get ⟨0, h0⟩ = m.get ⟨0, hmpos⟩ := by
      simp [List.get_eq_getElem, List.getElem_append_left hmpos]
    rw [hg]
    exact h2 hmpos

/-- C9: In every reachable session state the chat transcript is
well-shaped: each assistant turn is immediately preceded by a user turn
and a nonempty transcript starts with a user turn (a failed chat call may
leave a trailing unanswered user turn, never the reverse). -/
theorem C9_chat_alternation (s : SessionState) (h : Reachable s) :
    chatShapeOK s.chat_history := by
  induction h with
  | init => exact chatShapeOK_nil
  | step mkey gkey s' a hr ih =>
      unfold render
      by_cases hk : mkey = "" ∨ gkey = ""
      · rw [if_pos hk]
        cases a with
        | clearAll =>
            show chatShapeOK (clearAllAction s').chat_history
            unfold clearAllAction
            by_cases hp : s'.processed_data = []
            · rw [if_pos hp]; exact ih
            · rw [if_neg hp]; exact chatShapeOK_nil
        | process fn ts ocr an => exact ih
        | chat q outcome => exact ih
        | clearChat => exact ih
        | chatAbout d => exact ih
        | exportAll => exact ih
      · rw [if_neg hk]
        cases a with
        | process fn ts ocr an =>
            cases ocr with
            | raises => exact ih
            | falsy => exact ih
            | ok r =>
                cases an with
                | raises => exact ih
                | ok x => exact ih
        | chat q outcome =>
            simp only [stepA, chatAction]
            by_cases hp : s'.processed_data = []
            · rw [if_pos hp]; exact ih
            · rw [if_neg hp]
              cases outcome with
              | raises => exact chatShapeOK_append_user s'.chat_history q ih
              | ok resp =>
                  show chatShapeOK
                    ((s'.chat_history ++ [userTurn q]) ++ [assistantTurn resp])
                  rw [List.append_assoc]
                  exact chatShapeOK_append_answered s'.chat_history q resp ih
        | clearAll =>
            show chatShapeOK (clearAllAction s').chat_history
            unfold clearAllAction
            by_cases hp : s'.processed_data = []
            · rw [if_pos hp]; exact ih
            · rw [if_neg hp]; exact chatShapeOK_nil
        | clearChat =>
            simp only [stepA, clearChatAction]
            by_cases hp : s'.processed_data = []
            · rw [if_pos hp]; exact ih
            · rw [if_neg hp]
              by_cases hc : s'.chat_history = []
              · rw [if_pos hc]; exact ih
              · rw [if_neg hc]; exact chatShapeOK_nil
        | chatAbout d =>
            simp only [stepA, chatAboutAction]
            by_cases hp : s'.processed_data = []
            · rw [if_pos hp]; exact ih
            · rw [if_neg hp]; exact ih
        | exportAll => exact ih

theorem C9_chat_alternation_witness : chatShapeOK exampleState2.chat_history :=
  C9_chat_alternation exampleState2
    (Reachable.step "mkey" "gkey" exampleState1
      (Action.chat "q" (ChatOutcome.ok "ans"))
      (Reachable.step "mkey" "gkey" initState
        (Action.process "a.png" "t0" (OcrOutcome.ok sampleOcr)
          (AnalyzeOutcome.ok sampleAnalysis)) Reachable.init))

theorem lookupCount_bumpCount_same (m : List (String × Nat)) (k : String) :
    lookupCount (bumpCount m k) k = lookupCount m k + 1 := by
  induction m with
  | nil => simp [bumpCount, lookupCount]
  | cons p rest ih =>
      by_cases hpk : p.1 = k
      · simp [bumpCount, lookupCount, hpk]
      · simp [bumpCount, lookupCount, hpk, ih]

theorem lookupCount_bumpCount_ne (m : List (String × Nat)) (k t : String)
    (hne : t ≠ k) :
    lookupCount (bumpCount m k) t = lookupCount m t := by
  induction m with
  | nil => simp [bumpCount, lookupCount, Ne.symm hne]
  | cons p rest ih =>
      by_cases hpk : p.1 = k
      · subst hpk
        simp [bumpCount, lookupCount, Ne.symm hne]
      · by_cases hpt : p.1 = t
        · simp [bumpCount, lookupCount, hpk, hpt, hne]
        · simp [bumpCount, lookupCount, hpk, hpt, ih]

theorem lookupCount_foldl_bumpCount (docs : List ProcessedDoc)
    (m : List (String × Nat)) (t : String) :
    lookupCount
        (docs.foldl (fun acc d => bumpCount acc d.ocr_result.form_type) m) t
      = lookupCount m t
          + docs.countP (fun d => d.ocr_result.form_type == t) := by
  induction docs generalizing m with
  | nil => simp
  | cons d rest ih =>
      rw [List.foldl_cons, ih]
      by_cases hdt : d.ocr_result.form_type = t
      · rw [hdt, lookupCount_bumpCount_same]
        have hc : rest.countP (fun d => d.ocr_result.form_type == t) + 1
            = (d :: rest).countP (fun d => d.ocr_result.form_type == t) := by
          simp [List.countP_cons, hdt]
        omega
      · rw [lookupCount_bumpCount_ne _ _ _ (fun he => hdt he.symm)]
        have hc : rest.countP (fun d => d.ocr_result.form_type == t)
            = (d :: rest).countP (fun d => d.ocr_result.form_type == t) := by
          simp [List.countP_cons, hdt]
        omega

/-- C8: The analytics reads are pure functions of the current document
sequence: the Total Documents metric is its length, the Total Characters
metric is the sum of the extracted-text lengths of the stored documents,
the document-type distribution assigns to every form type exactly its
number of occurrences in the sequence, and after a successful processing
action the recomputed metrics reflect the newly appended record (nothing
is cached). -/
theorem C8_analytics_fresh (s : SessionState) (fn ts : String)
    (r : OcrResult) (a : Analysis) (t : String) :
    totalDocuments s.processed_data = s.processed_data.length ∧
    totalChars s.processed_data
        = (s.processed_data.map (fun d => d.ocr_result.text.length)).sum ∧
    lookupCount (formTypeCounts s.processed_data) t
        = s.processed_data.countP (fun d => d.ocr_result.form_type == t) ∧
    totalDocuments (processAction s fn ts (OcrOutcome.ok r)
        (AnalyzeOutcome.ok a)).processed_data
        = totalDocuments s.processed_data + 1 ∧
    totalChars (processAction s fn ts (OcrOutcome.ok r)
        (AnalyzeOutcome.ok a)).processed_data
        = totalChars s.processed_data + r.text.length := by
  refine ⟨rfl, rfl, ?_, ?_, ?_⟩
  · have h := lookupCount_foldl_bumpCount s.processed_data [] t
    simpa [formTypeCounts, lookupCount] using h
  · simp [totalDocuments, processAction]
  · simp [totalChars, processAction, mkDoc]
